import Mathlib

/-!
Verification development for the DentalCare-AI chat classification and
caching pipeline (the Vercel edge handler in the chat endpoint source).

The TypeScript source is shallowly embedded:
* JavaScript strings are Lean `String`s; the character-level helpers
  (`trim`, `toLowerCase`, `replace(/\s+/g,' ')`, `split(/\s+/)`,
  `\b…\b` word matching) are implemented over `List Char`, with JS `\s`
  idealised as `Char.isWhitespace` and JS `\w` as ASCII alphanumerics
  plus underscore.
* JavaScript numbers carried by embeddings and similarity scores are
  idealised as `ℚ`; `Math.sqrt` (only ever used inside the cosine
  denominator) is an explicit function parameter `sqrtQ : ℚ → ℚ`, since
  no verified property depends on its value beyond `sqrt 0 = 0`.
* Each external effect (completion service, embedding service, the
  OpenRouter fetch, the settings read) is an input describing that call's
  outcome: `Except Unit …` for calls that may throw, `FetchOutcome` for
  the raw fetch (which can also come back non-ok), `Option String` for a
  possibly missing response content.
* The chat-message store is a list of rows in creation order; the SQL
  `ORDER BY created_at DESC LIMIT 1` becomes "last matching row of the
  list", matching the source's assumption that rows are appended
  sequentially.
* JS truthiness tests that the source performs on strings, numbers and
  nullable columns are modelled exactly (`""`, `0` and `null` are falsy).
-/

namespace DentalCare

/-! ## JS-flavoured primitives -/

/-- Truthiness of a nullable JS string (`null`, `undefined` and `""` are falsy). -/
def jsTruthyOptStr : Option String → Bool
  | some s => s ≠ ""
  | none => false

/-- Truthiness of a nullable JS number (`null`, `undefined` and `0` are falsy). -/
def jsTruthyOptNat : Option Nat → Bool
  | some n => n ≠ 0
  | none => false

/-- JS `\w` (ASCII word character). -/
def isWordChar (c : Char) : Bool := c.isAlphanum || c = '_'

/-- Lowercase every character (JS `String.prototype.toLowerCase`). -/
def toLowerStr (s : String) : String := ⟨s.data.map Char.toLower⟩

/-- Uppercase every character (JS `String.prototype.toUpperCase`). -/
def strToUpper (s : String) : String := ⟨s.data.map Char.toUpper⟩

/-- JS `String.prototype.slice(0, n)` on our char-level strings. -/
def strTake (s : String) (n : Nat) : String := ⟨s.data.take n⟩

/-- Drop trailing whitespace characters. -/
def dropTrailWs : List Char → List Char
  | [] => []
  | c :: rest =>
    let r := dropTrailWs rest
    if r = [] && c.isWhitespace then [] else c :: r

/-- Strip leading and trailing whitespace. -/
def trimChars (l : List Char) : List Char :=
  (dropTrailWs l).dropWhile Char.isWhitespace

/-- JS `String.prototype.trim`. -/
def strTrim (s : String) : String := ⟨trimChars s.data⟩

/-- JS `replace(/\s+/g, ' ')`: each maximal whitespace run becomes one space. -/
def collapseWsList : List Char → List Char
  | [] => []
  | [c] => [if c.isWhitespace then ' ' else c]
  | c :: d :: rest =>
    if c.isWhitespace && d.isWhitespace then collapseWsList (d :: rest)
    else (if c.isWhitespace then ' ' else c) :: collapseWsList (d :: rest)

/-- Accumulator-based splitter: maximal runs of characters satisfying `p`,
empties dropped (the shape produced by JS `split` against the complement
class, composed with a non-empty filter). -/
def runsAux (p : Char → Bool) : List Char → List Char → List (List Char)
  | [], acc => if acc = [] then [] else [acc.reverse]
  | c :: rest, acc =>
    if p c then runsAux p rest (c :: acc)
    else if acc = [] then runsAux p rest []
    else acc.reverse :: runsAux p rest []

/-- Maximal runs of characters satisfying `p`. -/
def splitRuns (p : Char → Bool) (l : List Char) : List (List Char) :=
  runsAux p l []

/-- The whitespace-separated words of a character list (JS
`split(/\s+/)` followed by discarding empty fragments, which every use
site in the source does via a `length` filter). -/
def wordsChars (l : List Char) : List (List Char) :=
  splitRuns (fun c => !c.isWhitespace) l

/-- Number of non-empty whitespace-separated words of a string. -/
def wordCountStr (s : String) : Nat := (wordsChars s.data).length

/-- `needle` occurs at the start of `hay`. -/
def leadsWith : List Char → List Char → Bool
  | [], _ => true
  | _ :: _, [] => false
  | a :: as, b :: bs => a = b && leadsWith as bs

/-- `needle` occurs somewhere inside `hay` (JS `String.prototype.includes`). -/
def containsSub (needle hay : List Char) : Bool :=
  match hay with
  | [] => needle = []
  | _ :: rest => leadsWith needle hay || containsSub needle rest

/-- JS `hay.includes(needle)` on strings. -/
def strContains (hay needle : String) : Bool := containsSub needle.data hay.data

/-! ## Language Detector (`detectLanguage`) -/

/-- The three language labels returned by the detector
(`'english' | 'urdu' | 'roman'`; the spec calls the last one roman-urdu). -/
inductive Lang where
  | english
  | urdu
  | roman
deriving DecidableEq, Repr

/-- The fixed Roman-Urdu keyword list of the source. -/
def romanUrduKeywords : List String :=
  ["kaise", "kya", "kyu", "hai", "hain", "chahiye", "kitne", "mein", "aap", "ko", "ki", "ke"]

/-- Character in the Urdu script Unicode range `؀-ۿ`. -/
def isUrduChar (c : Char) : Bool := 0x600 ≤ c.toNat && c.toNat ≤ 0x6FF

/-- `/[؀-ۿ]/.test(text)`. -/
def hasUrduScript (s : String) : Bool := s.data.any isUrduChar

/-- Maximal runs of word characters; for an all-word-character keyword
`kw`, the regex `\bkw\b` matches a text exactly when `kw` is one of its
word runs. -/
def wordRuns (l : List Char) : List (List Char) := splitRuns isWordChar l

/-- `new RegExp('\\b' + kw + '\\b', 'i').test(text)` for the (already
lowercase, all-letter) keywords, applied to an already lowercased text. -/
def testWholeWord (kw : String) (text : String) : Bool :=
  (wordRuns text.data).contains kw.data

/-- `detectLanguage` from the source: Urdu script wins, then ≥ 2 distinct
Roman-Urdu keywords present, else english; empty input is english. -/
def detectLanguage (text : String) : Lang :=
  if text = "" then .english
  else if hasUrduScript text then .urdu
  else
    let normalized := toLowerStr text
    if 2 ≤ (romanUrduKeywords.filter (fun kw => testWholeWord kw normalized)).length
    then .roman
    else .english

/-- Modelled from the spec sentence of claim C4 ("the total count of
occurrences of the fixed Roman-Urdu keyword list"): total number of
whole-word keyword occurrences, counted with multiplicity. -/
def totalRomanUrduOccurrences (text : String) : Nat :=
  (romanUrduKeywords.map fun kw => (wordRuns (toLowerStr text).data).count kw.data).sum

/-- Number of distinct keywords of the fixed list that occur (this is the
count the source actually computes). -/
def distinctRomanUrduKeywordCount (text : String) : Nat :=
  (romanUrduKeywords.filter (fun kw => testWholeWord kw (toLowerStr text))).length

/-! ## Intent Normalizer (`normalizeText`, `rewriteToCanonicalIntent`) -/

/-- `normalizeText` from the source:
`text.toLowerCase().trim().replace(/\s+/g, ' ')`. -/
def normalizeText (s : String) : String :=
  ⟨collapseWsList (trimChars (s.data.map Char.toLower))⟩

/-- Delete every character that is neither a word character nor whitespace
(JS `replace(/[^\w\s]/g, '')`). -/
def removeNonWordSpace (l : List Char) : List Char :=
  l.filter fun c => isWordChar c || c.isWhitespace

/-- Join words with single spaces (JS `Array.prototype.join(' ')`). -/
def joinWords (ws : List (List Char)) : String :=
  String.intercalate " " (ws.map String.mk)

/-- The deterministic fallback of `rewriteToCanonicalIntent` (its `catch`
branch): `normalizeText(q).split(/\s+/).filter(w => w.length > 2).slice(0, 6).join(' ')`. -/
def intentFallback (q : String) : String :=
  joinWords (((wordsChars (normalizeText q).data).filter fun w => 2 < w.length).take 6)

/-- `rewriteToCanonicalIntent`: on success the completion content is
trimmed (missing content behaves as `''` via `|| ''`), lowercased,
stripped of non-word punctuation, whitespace-collapsed, trimmed and cut
to 50 characters; on any thrown error the deterministic fallback runs. -/
def rewriteToCanonicalIntent (llm : Except Unit (Option String)) (englishQuery : String) : String :=
  match llm with
  | .ok content =>
    let intent := match content with
      | some c => strTrim c
      | none => ""
    strTake (strTrim ⟨collapseWsList (removeNonWordSpace (toLowerStr intent).data)⟩) 50
  | .error _ => intentFallback englishQuery

/-- Modelled from the spec's words for the fallback (claim C7): "the query
lowercased and whitespace-collapsed, keeping only words longer than 2
characters, taking the first 6 of them, joined with single spaces" —
stated directly as word extraction from the lowercased query, without the
source's trim/collapse pre-pass. -/
def specIntentFallback (q : String) : String :=
  joinWords (((wordsChars (toLowerStr q).data).filter fun w => 2 < w.length).take 6)

/-! ## Cosine similarity (`cosineSimilarity`) -/

/-- The loop of `cosineSimilarity` accumulating `dotProduct`: pairwise
products summed up to the common length. -/
def dotQ : List ℚ → List ℚ → ℚ
  | a :: as, b :: bs => a * b + dotQ as bs
  | _, _ => 0

/-- The `normA` / `normB` accumulators: sum of squares. -/
def sumSq (l : List ℚ) : ℚ := dotQ l l

/-- `cosineSimilarity` with `Math.sqrt` supplied as `sqrtQ`: returns 0 for
empty or length-mismatched inputs, and 0 whenever the denominator
`sqrt(normA) * sqrt(normB)` is zero; only otherwise does it divide. -/
def cosineSimilarity (sqrtQ : ℚ → ℚ) (a b : List ℚ) : ℚ :=
  if a.length = 0 ∨ b.length = 0 ∨ a.length ≠ b.length then 0
  else
    let den := sqrtQ (sumSq a) * sqrtQ (sumSq b)
    if den = 0 then 0 else dotQ a b / den

/-! ## Strict Router (`strictRouter`) -/

/-- The six routing labels. -/
inductive RouteCategory where
  | GREETING
  | META
  | IRRELEVANT
  | EDUCATION
  | FAQ
  | GENERAL
deriving DecidableEq, Repr

/-- Outcome of the raw OpenRouter `fetch`: the call may throw, come back
with `response.ok` false, or succeed with a possibly missing message
content. -/
inductive FetchOutcome where
  | throws
  | notOk
  | ok (content : Option String)
deriving DecidableEq, Repr

/-- The `['GREETING', …].includes(result)` check together with the cast:
map the uppercased reply onto a label when it is exactly one of the six. -/
def routeOfString (s : String) : Option RouteCategory :=
  if s = "GREETING" then some .GREETING
  else if s = "META" then some .META
  else if s = "IRRELEVANT" then some .IRRELEVANT
  else if s = "EDUCATION" then some .EDUCATION
  else if s = "FAQ" then some .FAQ
  else if s = "GENERAL" then some .GENERAL
  else none

/-- What the primary (OpenRouter) attempt yields: a label only when the
key is configured (non-empty — JS truthiness), the fetch neither throws
nor returns non-ok, the content is present, and its trimmed uppercase is
one of the six labels. -/
def primaryRoute (apiKey : Option String) (pri : FetchOutcome) : Option RouteCategory :=
  if jsTruthyOptStr apiKey then
    match pri with
    | .ok (some content) => routeOfString (strToUpper (strTrim content))
    | _ => none
  else none

/-- What the secondary (OpenAI) attempt yields; a thrown call or an
unrecognised/missing reply yields nothing. -/
def secondaryRoute (sec : Except Unit (Option String)) : Option RouteCategory :=
  match sec with
  | .ok (some content) => routeOfString (strToUpper (strTrim content))
  | _ => none

/-- `strictRouter`: primary backend, then secondary backend, then the
hardcoded `EDUCATION` fallback. -/
def strictRouter (apiKey : Option String) (pri : FetchOutcome)
    (sec : Except Unit (Option String)) : RouteCategory :=
  match primaryRoute apiKey pri with
  | some r => r
  | none =>
    match secondaryRoute sec with
    | some r => r
    | none => .EDUCATION

/-! ## FAQ store rows and semantic search (`getTopFAQs`, `selectBestFAQWithLLM`) -/

/-- A FAQ row as the pipeline reads it. The stored JSON embedding is kept
already parsed (`[]` for a missing or unparsable value, exactly the
result of the source's parse-with-catch); `media_ids` is likewise kept as
the parsed id list. -/
structure Faq where
  id : Nat
  intent : String
  answer : String
  embedding : List ℚ
  media_ids : List Nat
deriving DecidableEq, Repr

/-- Score one FAQ against the intent embedding: pure embedding cosine
similarity, `0` when the stored embedding is empty or its dimensionality
mismatches. -/
def faqSimilarity (sqrtQ : ℚ → ℚ) (intentEmbedding : List ℚ) (faq : Faq) : ℚ :=
  if 0 < faq.embedding.length ∧ faq.embedding.length = intentEmbedding.length
  then cosineSimilarity sqrtQ intentEmbedding faq.embedding
  else 0

/-- Insert into a descending-by-score list, keeping earlier elements first
on ties (the stable `sort((a, b) => b.similarity - a.similarity)`). -/
def insertRanked (x : Faq × ℚ) : List (Faq × ℚ) → List (Faq × ℚ)
  | [] => [x]
  | y :: rest => if y.2 < x.2 then x :: y :: rest else y :: insertRanked x rest

/-- Stable descending sort by similarity. -/
def sortRankedDesc : List (Faq × ℚ) → List (Faq × ℚ)
  | [] => []
  | x :: rest => insertRanked x (sortRankedDesc rest)

/-- `getTopFAQs`: score every FAQ, sort descending, take the top `topN`
(no threshold filtering, by design). -/
def getTopFAQs (sqrtQ : ℚ → ℚ) (intentEmbedding : List ℚ) (faqs : List Faq)
    (topN : Nat) : List (Faq × ℚ) :=
  (sortRankedDesc (faqs.map fun faq => (faq, faqSimilarity sqrtQ intentEmbedding faq))).take topN

/-- Value of a non-empty digit run (`parseInt(…, 10)`). -/
def digitsVal (l : List Char) : Nat :=
  l.foldl (fun acc c => 10 * acc + (c.toNat - 48)) 0

/-- `result.match(/^(\d+)/)` followed by `parseInt`: the leading digit run
of the reply, if any. -/
def parseLeadingNat (s : String) : Option Nat :=
  let ds := s.data.takeWhile Char.isDigit
  if ds = [] then none else some (digitsVal ds)

/-- The `catch` fallback of `selectBestFAQWithLLM`: top candidate only if
its raw similarity exceeds `0.5`, else nothing. -/
def faqSelectionFallback (topFAQs : List (Faq × ℚ)) : Option Faq :=
  match topFAQs with
  | top :: _ => if 1 / 2 < top.2 then some top.1 else none
  | [] => none

/-- `selectBestFAQWithLLM`: empty candidate list short-circuits to null
before any call; a reply of `NONE` (after trim/uppercase) is null; a
leading-integer reply selects `topFAQs[n-1]` only when `0 ≤ n-1 < length`;
any other reply is null. A missing reply content makes the source's
`result.match` throw inside the `try`, and a thrown call lands in the
same `catch`: both take the similarity-threshold fallback. -/
def selectBestFAQWithLLM (canonicalIntent : String) (topFAQs : List (Faq × ℚ))
    (llm : Except Unit (Option String)) : Option Faq :=
  if topFAQs.length = 0 then none
  else
    match llm with
    | .ok (some content) =>
      if strToUpper (strTrim content) = "NONE" then none
      else
        match parseLeadingNat (strToUpper (strTrim content)) with
        | some n =>
          if 0 ≤ (n : Int) - 1 ∧ (n : Int) - 1 < topFAQs.length then
            (topFAQs.get? ((n : Int) - 1).toNat).map Prod.fst
          else none
        | none => none
    | .ok none => faqSelectionFallback topFAQs
    | .error _ => faqSelectionFallback topFAQs

/-! ## Data model: chat-message rows, media, suggestion groups, request
environment -/

/-- One `chat_messages` row. Decision columns are nullable; `media_urls`
and the stored suggestion chips are kept as their parsed values (the
source JSON-parses them with a swallow-everything catch that yields `[]`). -/
structure MsgRow where
  sender : String
  text : String
  canonical_intent : Option String := none
  route : Option RouteCategory := none
  resolved_faq_id : Option Nat := none
  pipeline_version : Option Nat := none
  query_id : Option String := none
  media_urls : List String := []
  suggestionsJ : List String := []
deriving DecidableEq, Repr

/-- A media row (`id, title, url, type` — only id and url are ever used). -/
structure MediaItem where
  id : Nat
  url : String
deriving DecidableEq, Repr

/-- A suggestion-chip group: whitespace-separated keywords plus the parsed
`chips_json` payload (chips are opaque to the pipeline, modelled as
strings). -/
structure SuggGroup where
  id : Nat
  keywords : String
  chips : List String
deriving DecidableEq, Repr

/-- The relational store visible to one request. Messages are listed in
creation order, so `ORDER BY created_at DESC LIMIT 1` selects the last
matching element. -/
structure Db where
  messages : List MsgRow
  faqs : List Faq
  media : List MediaItem
  suggGroups : List SuggGroup
deriving Repr

/-- Outcomes of every external call one request may issue. `Except Unit α`
is a call that either throws or yields `α`; completion contents are
`Option String` because the response choices may carry no content. -/
structure Env where
  settings : Except Unit (Option String)
  queryId : String
  translateIn : Except Unit (Option String)
  translateOut : Except Unit (Option String)
  intentLLM : Except Unit (Option String)
  routerKey : Option String
  routerPrimary : FetchOutcome
  routerSecondary : Except Unit (Option String)
  embed : Except Unit (List ℚ)
  faqSelect : Except Unit (Option String)
  eduGen : Except Unit (Option String)
  generalGen : Except Unit (Option String)
  faqGen : Except Unit (Option String)

/-! ## Translator and canned strings -/

/-- `translateToEnglish`: pass-through for English; otherwise the trimmed
completion content, falling back to the original text when the call
throws or the content is missing or empty (`|| text`). -/
def translateToEnglishM (outcome : Except Unit (Option String)) (text : String)
    (sourceLanguage : Lang) : String :=
  if sourceLanguage = .english then text
  else
    match outcome with
    | .ok (some c) => if strTrim c = "" then text else strTrim c
    | .ok none => text
    | .error _ => text

/-- `translateFromEnglish`, same contract in the other direction. -/
def translateFromEnglishM (outcome : Except Unit (Option String)) (text : String)
    (targetLanguage : Lang) : String :=
  if targetLanguage = .english then text
  else
    match outcome with
    | .ok (some c) => if strTrim c = "" then text else strTrim c
    | .ok none => text
    | .error _ => text

/-- `SAFE_FALLBACKS` per language. -/
def SAFE_FALLBACKS : Lang → String
  | .english => "I'm here to help with braces-related questions. Please try rephrasing your question or ask something specific about orthodontic care."
  | .urdu => "میں بریسز سے متعلق سوالات میں مدد کے لیے یہاں موجود ہوں۔ براہ کرم اپنے سوال کو دوبارہ لکھیں۔"
  | .roman => "Main braces se mutaliq sawalat mein madad ke liye yahan mojood hoon. Barah-e-karam apne sawal ko dobara likhain."

/-- `EARLY_RESPONSES[route][language]` for the three canned routes; the
table has no entries for the other routes and is never indexed by them. -/
def EARLY_RESPONSES : RouteCategory → Lang → String
  | .GREETING, .english => "Hello! How can I help you with your dental care today?"
  | .GREETING, .urdu => "سلام! میں آپ کی دانتوں کی دیکھ بھال میں کیسے مدد کر سکتا ہوں؟"
  | .GREETING, .roman => "AOA! Main aap ki danton ki dekh bhaal mein kaise madad kar sakta hoon?"
  | .META, .english => "I am the DentalCare AI Assistant here to help with your orthodontic questions."
  | .META, .urdu => "میں ڈینٹل کیئر اے آئی اسسٹنٹ ہوں جو آپ کے سوالات میں مدد کے لیے یہاں موجود ہوں۔"
  | .META, .roman => "Main DentalCare AI Assistant hoon jo aap ke sawalat mein madad ke liye yahan mojood hoon."
  | .IRRELEVANT, .english => "I focus only on dental and orthodontic care. Please ask something related to teeth or braces."
  | .IRRELEVANT, .urdu => "میں صرف دانتوں اور آرتھوڈونٹکس سے متعلق سوالات کا جواب دے سکتا ہوں۔"
  | .IRRELEVANT, .roman => "Main sirf danton aur braces se mutaliq sawalat ka jawab de sakta hoon."
  | _, _ => ""

/-- `content?.trim() || fallback` for the three answer-generation calls. -/
def genAnswerOr (outcome : Except Unit (Option String)) (fallback : String) : String :=
  match outcome with
  | .ok (some c) => if strTrim c = "" then fallback else strTrim c
  | .ok none => fallback
  | .error _ => fallback

/-- `selectMediaFromLinkedIds`. -/
def selectMediaFromLinkedIds (faqMediaIds : List Nat) (media : List MediaItem) :
    List String :=
  if faqMediaIds = [] ∨ media = [] then []
  else ((media.filter fun m => faqMediaIds.contains m.id).map (·.url)).filter
    fun u => u ≠ ""

/-- The EDUCATION branch's unconditional diagram attachment (media ids 5
and 6; this site only type-checks the url, with no truthiness filter). -/
def eduMedia (media : List MediaItem) : List String :=
  (media.filter fun m => m.id = 5 ∨ m.id = 6).map (·.url)

/-! ## Cache Manager -/

def PIPELINE_VERSION : Nat := 1

def MAX_INPUT_LENGTH : Nat := 1000

/-- `isValidInput`. -/
def isValidInput (text : String) (maxLength : Nat) : Bool :=
  0 < text.length && text.length ≤ maxLength

/-- The normalized input: the trimmed message, truncated to the maximum
length when over it. -/
def normalizedInput (trimmed : String) : String :=
  if isValidInput trimmed MAX_INPUT_LENGTH then trimmed
  else strTake trimmed MAX_INPUT_LENGTH

/-- The cache gate: caching is on unless the settings row exists and its
value is exactly `'false'`; a thrown settings read leaves the default
(enabled). -/
def cacheEnabledOf (setting : Except Unit (Option String)) : Bool :=
  match setting with
  | .ok (some v) => if v = "false" then false else true
  | .ok none => true
  | .error _ => true

/-- The cache-read SELECT: the most recent prior `user` row whose
lowercased text equals the lowercased normalized message, with the same
pipeline version and a non-null route. -/
def cacheLookup (msgs : List MsgRow) (normalized : String) (ver : Nat) : Option MsgRow :=
  (msgs.filter fun r =>
    r.sender = "user" && toLowerStr r.text = toLowerStr normalized
      && r.pipeline_version = some ver && r.route.isSome).getLast?

/-- The full-hit probe: when the cached user row carries a (truthy)
`query_id`, look for a bot row of the same query. -/
def fullHitLookup (msgs : List MsgRow) (row : MsgRow) : Option MsgRow :=
  match row.query_id with
  | some q =>
    if q = "" then none
    else msgs.find? fun r => r.query_id = some q && r.sender = "bot"
  | none => none

/-- What the CACHE LOGIC block concludes before the main pipeline runs. -/
inductive CacheProbe where
  | noRead
  | fullHit (bot : MsgRow)
  | partialHit (intent : String) (route : RouteCategory) (faqId : Option Nat)
  | miss
deriving DecidableEq, Repr

/-- The CACHE LOGIC block: the read is attempted only when the gate is on
and the query is not a suggestion candidate; a found row yields a full
hit when its bot response is recoverable, else a partial hit when the
cached intent is truthy and the route present (`row.canonical_intent &&
row.route`), else the request is treated as a miss. -/
def cacheProbe (msgs : List MsgRow) (cacheEnabled isCand : Bool)
    (normalized : String) : CacheProbe :=
  if cacheEnabled && !isCand then
    match cacheLookup msgs normalized PIPELINE_VERSION with
    | some row =>
      match fullHitLookup msgs row with
      | some bot => .fullHit bot
      | none =>
        if jsTruthyOptStr row.canonical_intent && row.route.isSome then
          .partialHit (row.canonical_intent.getD "") (row.route.getD .GENERAL)
            row.resolved_faq_id
        else .miss
    | none => .miss
  else .noRead

/-- The cache write: `UPDATE` the latest `user` row in creation order
(the update function receives the row and sets the decision columns). -/
def updLastUser (f : MsgRow → MsgRow) : List MsgRow → List MsgRow
  | [] => []
  | r :: rest =>
    if rest.any (fun x => x.sender = "user") then r :: updLastUser f rest
    else if r.sender = "user" then f r :: rest
    else r :: rest

/-- The row the frontend logs for a user turn before invoking the
pipeline: raw text, all decision columns null. -/
def mkUserRow (text : String) : MsgRow :=
  { sender := "user", text := text }

/-! ## Pipeline Orchestrator (`handler`) -/

/-- What one run of the FAQ branch produced, together with which external
calls it issued (`matcherRuns` marks entering the fresh-search path,
`embedCalls` / `selectCalls` the embedding and FAQ-selection completion
calls, `faqGenCalls` the no-match generation fallback). -/
structure FaqBranchResult where
  selectedFAQ : Option Faq
  resolvedFaqId : Option Nat
  answer : String
  mediaUrls : List String
  matcherRuns : Nat
  embedCalls : Nat
  selectCalls : Nat
  faqGenCalls : Nat
deriving Repr

/-- The `case 'FAQ'` branch. With a cache hit: a non-null cached id is
reused when still present in the FAQ table (re-searching only when it is
not), and a cached null id is trusted as "no match previously" and
suppresses the search. A fresh search embeds the canonical intent, ranks,
and lets the completion service select; a thrown embedding call lands in
the branch catch (null resolution). Whenever nothing is selected, the
answer is generated by the safety-conscious fallback completion call. -/
def faqBranch (sqrtQ : ℚ → ℚ) (env : Env) (faqs : List Faq) (media : List MediaItem)
    (usingCached : Bool) (cachedFaqId : Option Nat) (canonicalIntent : String) :
    FaqBranchResult :=
  let cachedSel : Option Faq × Bool :=
    if usingCached then
      match cachedFaqId with
      | some cid =>
        match faqs.find? (fun f => f.id = cid) with
        | some f => (some f, false)
        | none => (none, true)
      | none => (none, false)
    else (none, true)
  let searched : Option Faq × Option Nat × Nat × Nat × Nat :=
    if cachedSel.2 then
      match env.embed with
      | .ok intentEmbedding =>
        if 0 < intentEmbedding.length then
          let top := getTopFAQs sqrtQ intentEmbedding faqs 5
          let sel := selectBestFAQWithLLM canonicalIntent top env.faqSelect
          (sel, sel.map (·.id), 1, 1, if top.length = 0 then 0 else 1)
        else (none, none, 1, 1, 0)
      | .error _ => (none, none, 1, 1, 0)
    else (cachedSel.1, cachedSel.1.map (·.id), 0, 0, 0)
  match searched with
  | (selectedFAQ, resolvedFaqId, matcherRuns, embedCalls, selectCalls) =>
    match selectedFAQ with
    | some f =>
      { selectedFAQ := some f, resolvedFaqId := resolvedFaqId,
        answer := f.answer, mediaUrls := selectMediaFromLinkedIds f.media_ids media,
        matcherRuns := matcherRuns, embedCalls := embedCalls,
        selectCalls := selectCalls, faqGenCalls := 0 }
    | none =>
      { selectedFAQ := none, resolvedFaqId := resolvedFaqId,
        answer := genAnswerOr env.faqGen (SAFE_FALLBACKS .english), mediaUrls := [],
        matcherRuns := matcherRuns, embedCalls := embedCalls,
        selectCalls := selectCalls, faqGenCalls := 1 }

/-- The suggestion-chips matcher: a group matches when any of its
(lowercased, whitespace-split) keywords is one of the intent's words or a
substring of the lowercased intent; matching groups contribute their
chips in order. -/
def chipsFor (groups : List SuggGroup) (canonicalIntent : String) : List String :=
  groups.foldl
    (fun acc g =>
      let intentWords := wordsChars (toLowerStr canonicalIntent).data
      let kws := (wordsChars (toLowerStr g.keywords).data).map String.mk
      if kws.any (fun k =>
          intentWords.contains k.data || strContains (toLowerStr canonicalIntent) k)
      then acc ++ g.chips
      else acc)
    []

/-- The canned chips reply, Urdu when the normalized text has any
non-ASCII character (`/[^\u0000-\u007F]/`). -/
def suggestReplyFor (normalized : String) : String :=
  if normalized.data.any (fun c => 0x7F < c.toNat) then "یہاں کچھ تجاویز ہیں:"
  else "Here are some suggestions:"

/-- The observable outcome of one handler invocation: the HTTP payload,
the post-state of the message log, and which pipeline decisions were
cached versus freshly computed (mirroring the source's `pipelineLogs`
markers and its external-call sites). -/
structure HandlerResult where
  status : Nat := 200
  text : String := ""
  mediaUrls : List String := []
  faqId : Option Nat := none
  suggestions : List String := []
  messages : List MsgRow := []
  cacheReadPerformed : Bool := false
  fullCacheHit : Bool := false
  usedCachedIntent : Bool := false
  usedCachedRoute : Bool := false
  intentCalls : Nat := 0
  routerCalls : Nat := 0
  matcherRuns : Nat := 0
  embedCalls : Nat := 0
  selectCalls : Nat := 0
  faqGenCalls : Nat := 0
  canonicalIntent : Option String := none
  route : Option RouteCategory := none
  resolvedFaqId : Option Nat := none
deriving Repr

/-- Steps 4–6 of the pipeline (route resolution, route branch, outbound
translation, write-through cache update), shared by `mainPipeline` once
the suggestion-chips early return has not fired. -/
def mainCore (sqrtQ : ℚ → ℚ) (env : Env) (st : Db)
    (usingCached : Bool) (cachedRoute : Option RouteCategory)
    (cachedFaqId : Option Nat) (cacheReadPerformed useCI : Bool)
    (canonicalIntent : String) (language : Lang) : HandlerResult :=
    let useCR := usingCached && cachedRoute.isSome
    let route :=
      if useCR then cachedRoute.getD .GENERAL
      else strictRouter env.routerKey env.routerPrimary env.routerSecondary
    let routerCalls := if useCR then 0 else 1
    let bo : FaqBranchResult :=
      match route with
      | .GREETING | .META | .IRRELEVANT =>
        { selectedFAQ := none, resolvedFaqId := none,
          answer := EARLY_RESPONSES route language, mediaUrls := [],
          matcherRuns := 0, embedCalls := 0, selectCalls := 0, faqGenCalls := 0 }
      | .EDUCATION =>
        match env.eduGen with
        | .ok c =>
          { selectedFAQ := none, resolvedFaqId := none,
            answer := genAnswerOr (.ok c) (SAFE_FALLBACKS .english),
            mediaUrls := eduMedia st.media,
            matcherRuns := 0, embedCalls := 0, selectCalls := 0, faqGenCalls := 0 }
        | .error _ =>
          { selectedFAQ := none, resolvedFaqId := none,
            answer := SAFE_FALLBACKS .english, mediaUrls := [],
            matcherRuns := 0, embedCalls := 0, selectCalls := 0, faqGenCalls := 0 }
      | .GENERAL =>
        { selectedFAQ := none, resolvedFaqId := none,
          answer := genAnswerOr env.generalGen (SAFE_FALLBACKS .english), mediaUrls := [],
          matcherRuns := 0, embedCalls := 0, selectCalls := 0, faqGenCalls := 0 }
      | .FAQ => faqBranch sqrtQ env st.faqs st.media usingCached cachedFaqId canonicalIntent
    let finalAnswer :=
      if language ≠ .english
          && !(route = .GREETING || route = .META || route = .IRRELEVANT) then
        translateFromEnglishM env.translateOut bo.answer language
      else bo.answer
    { text := finalAnswer, mediaUrls := bo.mediaUrls,
      faqId := match bo.selectedFAQ with
        | some f => if f.id = 0 then none else some f.id
        | none => none,
      messages := updLastUser (fun r =>
        { r with canonical_intent := some canonicalIntent,
                 route := some route,
                 resolved_faq_id := bo.resolvedFaqId,
                 pipeline_version := some PIPELINE_VERSION,
                 query_id := some env.queryId }) st.messages,
      cacheReadPerformed := cacheReadPerformed,
      usedCachedIntent := useCI, usedCachedRoute := useCR,
      intentCalls := if useCI then 0 else 1, routerCalls := routerCalls,
      matcherRuns := bo.matcherRuns, embedCalls := bo.embedCalls,
      selectCalls := bo.selectCalls, faqGenCalls := bo.faqGenCalls,
      canonicalIntent := some canonicalIntent, route := some route,
      resolvedFaqId := bo.resolvedFaqId }

/-- Steps 1–6 of the pipeline after the cache probe: language detection,
inbound translation, intent resolution (cached when `usingCached` and the
cached intent is truthy), the suggestion-chips early return for short
queries, and the rest of the pipeline (`mainCore`). -/
def mainPipeline (sqrtQ : ℚ → ℚ) (env : Env) (st : Db) (normalized : String)
    (isCand usingCached : Bool) (cachedIntent : Option String)
    (cachedRoute : Option RouteCategory) (cachedFaqId : Option Nat)
    (cacheReadPerformed : Bool) : HandlerResult :=
  let language := detectLanguage normalized
  let englishQuery := translateToEnglishM env.translateIn normalized language
  let useCI := usingCached && jsTruthyOptStr cachedIntent
  let canonicalIntent :=
    if useCI then cachedIntent.getD ""
    else rewriteToCanonicalIntent env.intentLLM englishQuery
  let chips := chipsFor st.suggGroups canonicalIntent
  if isCand && !chips.isEmpty then
    { text := suggestReplyFor normalized, suggestions := chips,
      messages := updLastUser (fun r =>
        { r with canonical_intent := some canonicalIntent,
                 route := some .GENERAL,
                 pipeline_version := some PIPELINE_VERSION,
                 query_id := some env.queryId }) st.messages,
      cacheReadPerformed := cacheReadPerformed, usedCachedIntent := useCI,
      intentCalls := if useCI then 0 else 1, canonicalIntent := some canonicalIntent }
  else
    mainCore sqrtQ env st usingCached cachedRoute cachedFaqId cacheReadPerformed
      useCI canonicalIntent language

/-- Cache gate + cache probe + dispatch: a full hit returns the stored bot
response verbatim; a partial hit replays the pipeline with the cached
decisions; a miss (or skipped read) computes everything fresh. -/
def handlerMain (sqrtQ : ℚ → ℚ) (env : Env) (st : Db) (normalized : String)
    (isCand : Bool) : HandlerResult :=
  let cacheEnabled := cacheEnabledOf env.settings
  match cacheProbe st.messages cacheEnabled isCand normalized with
  | .fullHit bot =>
    { text := bot.text, mediaUrls := bot.media_urls, faqId := bot.resolved_faq_id,
      suggestions := bot.suggestionsJ, messages := st.messages,
      cacheReadPerformed := true, fullCacheHit := true }
  | .partialHit i r fid =>
    mainPipeline sqrtQ env st normalized isCand true (some i) (some r) fid true
  | .miss =>
    mainPipeline sqrtQ env st normalized isCand false none none none true
  | .noRead =>
    mainPipeline sqrtQ env st normalized isCand false none none none false

/-- The suggestion-click early path: answer directly from the clicked FAQ,
translating when needed, and log both turns with the FAQ decision
attached. -/
def suggestionClickResult (env : Env) (st : Db) (normalized : String) (faq : Faq)
    (sid : Nat) : HandlerResult :=
  let detectedLang := detectLanguage normalized
  let finalAnswer :=
    if detectedLang = .english then faq.answer
    else translateFromEnglishM env.translateOut faq.answer detectedLang
  let selectedMedia := selectMediaFromLinkedIds faq.media_ids st.media
  let userRow : MsgRow :=
    { sender := "user", text := normalized,
      canonical_intent := some ("SUGGESTION_CLICK:" ++ toString sid),
      route := some .FAQ, resolved_faq_id := some sid,
      pipeline_version := some PIPELINE_VERSION, query_id := some env.queryId }
  let botRow : MsgRow :=
    { sender := "bot", text := finalAnswer, media_urls := selectedMedia,
      resolved_faq_id := some sid, pipeline_version := some PIPELINE_VERSION,
      query_id := some env.queryId }
  { text := finalAnswer, mediaUrls := selectedMedia, faqId := some sid,
    messages := st.messages ++ [userRow, botRow] }

/-- The edge-function handler from request validation onward: 400 for a
missing message or user name, the canned safe fallback for an
all-whitespace message, truncation to 1000 characters, suggestion-click
short-circuit (a truthy `suggestionFaqId` whose FAQ exists), then the
cache logic and the main pipeline. -/
def handler (sqrtQ : ℚ → ℚ) (env : Env) (st : Db) (message userName : String)
    (suggestionFaqId : Option Nat) : HandlerResult :=
  if message = "" ∨ userName = "" then { status := 400, messages := st.messages }
  else
    let trimmed := strTrim message
    if trimmed = "" then
      { text := SAFE_FALLBACKS .english, messages := st.messages }
    else
      let normalized := normalizedInput trimmed
      let isCand : Bool := decide (wordCountStr normalized ≤ 3)
      match suggestionFaqId with
      | some sid =>
        if sid ≠ 0 then
          match st.faqs.find? (fun f => f.id = sid) with
          | some faq => suggestionClickResult env st normalized faq sid
          | none => handlerMain sqrtQ env st normalized isCand
        else handlerMain sqrtQ env st normalized isCand
      | none => handlerMain sqrtQ env st normalized isCand

/-- Two back-to-back requests with the same raw text: the frontend logs a
fresh user row before each pipeline run (spec §4.6's single-writer
precondition), and the second request starts from the first one's
post-state. -/
def twoRequests (sqrtQ : ℚ → ℚ) (env1 env2 : Env) (st0 : Db) (m u : String) :
    HandlerResult × HandlerResult :=
  let r1 := handler sqrtQ env1 { st0 with messages := st0.messages ++ [mkUserRow m] } m u none
  let r2 := handler sqrtQ env2 { st0 with messages := r1.messages ++ [mkUserRow m] } m u none
  (r1, r2)

/-! ## Concrete fixtures for witnesses and counterexamples -/

/-- An environment whose settings read finds no row (cache enabled), whose
intent rewrite succeeds, and whose router resolves GREETING through the
secondary backend; every other external call throws. -/
def envG : Env :=
  { settings := .ok none, queryId := "q1", translateIn := .error (),
    translateOut := .error (), intentLLM := .ok (some "greeting hello wave"),
    routerKey := none, routerPrimary := .throws,
    routerSecondary := .ok (some "GREETING"), embed := .error (),
    faqSelect := .error (), eduGen := .error (), generalGen := .error (),
    faqGen := .error () }

/-- An empty store. -/
def db0 : Db := { messages := [], faqs := [], media := [], suggGroups := [] }

/-- A sample FAQ row. -/
def faqA : Faq :=
  { id := 7, intent := "wire poking cheek", answer := "Use wax.",
    embedding := [], media_ids := [] }

/-- A completed prior user row whose FAQ search found nothing
(`resolved_faq_id` null) on the FAQ route. -/
def rowC1 : MsgRow :=
  { sender := "user", text := "braces wire poking cheek",
    canonical_intent := some "braces wire poking cheek",
    route := some .FAQ, resolved_faq_id := none,
    pipeline_version := some PIPELINE_VERSION }

/-- A store holding only that completed row. -/
def stC1 : Db := { messages := [rowC1], faqs := [faqA], media := [], suggGroups := [] }

/-- A completed prior user row for the short query `"hi"`. -/
def rowHi : MsgRow :=
  { sender := "user", text := "hi", canonical_intent := some "greeting",
    route := some .GREETING, resolved_faq_id := none,
    pipeline_version := some PIPELINE_VERSION }

/-- A store holding an identical completed prior short message. -/
def stC10 : Db := { messages := [rowHi], faqs := [], media := [], suggGroups := [] }

/-! ## Helper lemmas: word splitting -/

theorem runsAux_length_pos (p : Char → Bool) (l : List Char) :
    ∀ acc : List Char, acc ≠ [] → 1 ≤ (runsAux p l acc).length := by
  induction l with
  | nil => intro acc h; simp [runsAux, h]
  | cons c rest ih =>
    intro acc h
    by_cases hp : p c
    · simpa [runsAux, hp] using ih (c :: acc) (by simp)
    · simp [runsAux, hp, h]

theorem runsAux_take_length_le (p : Char → Bool) (l : List Char) :
    ∀ (n : Nat) (acc : List Char),
      (runsAux p (l.take n) acc).length ≤ (runsAux p l acc).length := by
  induction l with
  | nil => intro n acc; simp
  | cons c rest ih =>
    intro n acc
    cases n with
    | zero =>
      by_cases h : acc = []
      · simp [runsAux, h]
      · simpa [runsAux, h] using runsAux_length_pos p (c :: rest) acc h
    | succ k =>
      simp only [List.take_succ_cons, runsAux]
      by_cases hp : p c
      · simpa [hp] using ih k (c :: acc)
      · by_cases h : acc = []
        · simpa [hp, h] using ih k []
        · simpa [hp, h] using ih k []

theorem wordsChars_take_length_le (l : List Char) (n : Nat) :
    (wordsChars (l.take n)).length ≤ (wordsChars l).length :=
  runsAux_take_length_le _ l n []

theorem runsAux_all_ws (l : List Char) (h : ∀ c ∈ l, c.isWhitespace) :
    ∀ acc, runsAux (fun c => !c.isWhitespace) l acc
      = if acc = [] then [] else [acc.reverse] := by
  induction l with
  | nil => intro acc; rfl
  | cons c rest ih =>
    intro acc
    have hc : c.isWhitespace := h c (by simp)
    have ih0 := ih (fun d hd => h d (by simp [hd])) []
    by_cases ha : acc = [] <;> simp [runsAux, hc, ha, ih0]

theorem all_ws_of_dropTrailWs_nil (l : List Char) (h : dropTrailWs l = []) :
    ∀ c ∈ l, c.isWhitespace := by
  induction l with
  | nil => simp
  | cons c rest ih =>
    by_cases hr : dropTrailWs rest = []
    · by_cases hc : c.isWhitespace
      · intro d hd
        rcases List.mem_cons.mp hd with h1 | h2
        · simpa [h1] using hc
        · exact ih hr d h2
      · exfalso
        rw [dropTrailWs] at h
        simp [hr, hc] at h
    · exfalso
      rw [dropTrailWs] at h
      simp [hr] at h

theorem runsAux_dropTrailWs (l : List Char) :
    ∀ acc, runsAux (fun c => !c.isWhitespace) (dropTrailWs l) acc
      = runsAux (fun c => !c.isWhitespace) l acc := by
  induction l with
  | nil => intro acc; rfl
  | cons c rest ih =>
    intro acc
    by_cases hr : dropTrailWs rest = []
    · have hall : ∀ d ∈ rest, d.isWhitespace := all_ws_of_dropTrailWs_nil rest hr
      by_cases hc : c.isWhitespace
      · have h2 := runsAux_all_ws rest hall []
        by_cases ha : acc = [] <;>
          simp [dropTrailWs, hr, hc, runsAux, h2, ha]
      · have h2 := runsAux_all_ws rest hall (c :: acc)
        simp [dropTrailWs, hr, hc, runsAux, h2]
    · by_cases hc : c.isWhitespace
      · by_cases ha : acc = [] <;>
          simp [dropTrailWs, hr, hc, runsAux, ih [], ha]
      · simp [dropTrailWs, hr, hc, runsAux, ih (c :: acc)]

theorem runsAux_dropWhile_ws (l : List Char) :
    runsAux (fun c => !c.isWhitespace) (l.dropWhile Char.isWhitespace) []
      = runsAux (fun c => !c.isWhitespace) l [] := by
  induction l with
  | nil => rfl
  | cons c rest ih =>
    by_cases hc : c.isWhitespace
    · simpa [List.dropWhile, hc, runsAux] using ih
    · simp [List.dropWhile, hc]

theorem runsAux_collapseWs (l : List Char) :
    ∀ acc, runsAux (fun c => !c.isWhitespace) (collapseWsList l) acc
      = runsAux (fun c => !c.isWhitespace) l acc := by
  induction l with
  | nil => intro acc; rfl
  | cons c rest ih =>
    intro acc
    cases rest with
    | nil =>
      by_cases hc : c.isWhitespace <;>
        by_cases ha : acc = [] <;>
          simp [collapseWsList, hc, runsAux, ha]
    | cons d rest' =>
      by_cases hc : c.isWhitespace
      · by_cases hd : d.isWhitespace
        · have h1 := ih acc
          have h2 := ih []
          by_cases ha : acc = [] <;>
            simp [collapseWsList, hc, hd, runsAux, ha] at h1 h2 ⊢ <;>
              simp [h1, h2, ← ih acc, runsAux, hc, hd, ha]
        · by_cases ha : acc = [] <;>
            simp [collapseWsList, hc, hd, runsAux, ha, ih []]
      · simp [collapseWsList, hc, runsAux, ih (c :: acc)]

theorem wordsChars_trimChars (l : List Char) :
    wordsChars (trimChars l) = wordsChars l := by
  show runsAux _ ((dropTrailWs l).dropWhile Char.isWhitespace) [] = _
  rw [runsAux_dropWhile_ws, runsAux_dropTrailWs]
  rfl

theorem wordsChars_collapseWs (l : List Char) :
    wordsChars (collapseWsList l) = wordsChars l :=
  runsAux_collapseWs l []

theorem wordsChars_normalizeText (q : String) :
    wordsChars (normalizeText q).data = wordsChars (toLowerStr q).data := by
  show wordsChars (collapseWsList (trimChars (q.data.map Char.toLower))) = _
  rw [wordsChars_collapseWs, wordsChars_trimChars]
  rfl

/-! ## Claim C7 -/

/-- C7: whenever the intent-rewriting completion call throws,
`rewriteToCanonicalIntent` returns the deterministic, side-effect-free
fallback described by the spec: the query lowercased and
whitespace-collapsed, keeping only the words longer than 2 characters,
taking the first 6 of them, joined with single spaces. -/
theorem rewriteToCanonicalIntent_error_fallback (q : String) :
    rewriteToCanonicalIntent (.error ()) q = specIntentFallback q := by
  show intentFallback q = specIntentFallback q
  unfold intentFallback specIntentFallback
  rw [wordsChars_normalizeText]

/-! ## Helper lemmas: pipeline bookkeeping projections -/

theorem mainCore_bookkeeping (sqrtQ : ℚ → ℚ) (env : Env) (st : Db)
    (usingCached : Bool) (cachedRoute : Option RouteCategory)
    (cachedFaqId : Option Nat) (crp useCI : Bool) (ci : String) (lang : Lang) :
    (mainCore sqrtQ env st usingCached cachedRoute cachedFaqId crp useCI ci
        lang).cacheReadPerformed = crp ∧
    (mainCore sqrtQ env st usingCached cachedRoute cachedFaqId crp useCI ci
        lang).usedCachedIntent = useCI ∧
    (mainCore sqrtQ env st usingCached cachedRoute cachedFaqId crp useCI ci
        lang).intentCalls = (if useCI then 0 else 1) ∧
    (mainCore sqrtQ env st usingCached cachedRoute cachedFaqId crp useCI ci
        lang).canonicalIntent = some ci ∧
    (mainCore sqrtQ env st usingCached cachedRoute cachedFaqId crp useCI ci
        lang).usedCachedRoute = (usingCached && cachedRoute.isSome) ∧
    (mainCore sqrtQ env st usingCached cachedRoute cachedFaqId crp useCI ci
        lang).routerCalls = (if usingCached && cachedRoute.isSome then 0 else 1) :=
  ⟨rfl, rfl, rfl, rfl, rfl, rfl⟩

/-! ## Helper lemmas: FAQ selection stays inside the candidate list -/

theorem mem_insertRanked {x y : Faq × ℚ} {l : List (Faq × ℚ)} :
    x ∈ insertRanked y l ↔ x = y ∨ x ∈ l := by
  induction l with
  | nil => simp [insertRanked]
  | cons z rest ih =>
    by_cases hz : z.2 < y.2
    · simp [insertRanked, hz]
      try tauto
    · simp [insertRanked, hz, ih]
      try tauto

theorem mem_sortRankedDesc {x : Faq × ℚ} {l : List (Faq × ℚ)} :
    x ∈ sortRankedDesc l ↔ x ∈ l := by
  induction l with
  | nil => simp [sortRankedDesc]
  | cons z rest ih =>
    simp [sortRankedDesc, mem_insertRanked, ih]

theorem getTopFAQs_fst_mem (sqrtQ : ℚ → ℚ) (e : List ℚ) (faqs : List Faq)
    (n : Nat) {p : Faq × ℚ} (h : p ∈ getTopFAQs sqrtQ e faqs n) : p.1 ∈ faqs := by
  have h1 : p ∈ sortRankedDesc (faqs.map fun faq => (faq, faqSimilarity sqrtQ e faq)) :=
    List.mem_of_mem_take h
  have h2 := mem_sortRankedDesc.mp h1
  obtain ⟨f, hf, rfl⟩ := List.mem_map.mp h2
  exact hf

theorem selectBestFAQ_mem (ci : String) (top : List (Faq × ℚ))
    (llm : Except Unit (Option String)) (f : Faq)
    (h : selectBestFAQWithLLM ci top llm = some f) : f ∈ top.map Prod.fst := by
  unfold selectBestFAQWithLLM at h
  by_cases h0 : top.length = 0
  · simp [h0] at h
  · rw [if_neg h0] at h
    have fb : ∀ hfb : faqSelectionFallback top = some f, f ∈ top.map Prod.fst := by
      intro hfb
      cases top with
      | nil => simp [faqSelectionFallback] at hfb
      | cons t rest =>
        simp only [faqSelectionFallback] at hfb
        by_cases ht : 1 / 2 < t.2
        · rw [if_pos ht] at hfb
          obtain rfl : t.1 = f := by simpa using hfb
          simp
        · rw [if_neg ht] at hfb
          simp at hfb
    match llm with
    | .ok (some content) =>
      simp only [] at h
      by_cases hn : strToUpper (strTrim content) = "NONE"
      · simp [hn] at h
      · rw [if_neg hn] at h
        cases hp : parseLeadingNat (strToUpper (strTrim content)) with
        | none => rw [hp] at h; simp at h
        | some n =>
          rw [hp] at h
          simp only [] at h
          by_cases hg : (0 : Int) ≤ (n : Int) - 1 ∧ ((n : Int) - 1) < top.length
          · rw [if_pos hg] at h
            cases hq : top.get? ((n : Int) - 1).toNat with
            | none => rw [hq] at h; simp at h
            | some p =>
              rw [hq] at h
              obtain rfl : p.1 = f := by simpa using h
              exact List.mem_map_of_mem Prod.fst (List.get?_mem hq)
          · rw [if_neg hg] at h
            simp at h
    | .ok none =>
      simp only [] at h
      exact fb h
    | .error e =>
      simp only [] at h
      exact fb h

/-! ## Helper lemmas: handler plumbing -/

theorem strTrim_empty : strTrim "" = "" := rfl

theorem handler_eq_handlerMain (sqrtQ : ℚ → ℚ) (env : Env) (st : Db) (m u : String)
    (hm : strTrim m ≠ "") (hu : u ≠ "") :
    handler sqrtQ env st m u none
      = handlerMain sqrtQ env st (normalizedInput (strTrim m))
          (decide (wordCountStr (normalizedInput (strTrim m)) ≤ 3)) := by
  have hm0 : m ≠ "" := by
    intro h
    exact hm (by rw [h]; rfl)
  simp only [handler, hm0, hu, or_self, if_false, hm, ite_false, if_neg,
    not_false_eq_true]

theorem wordCountStr_normalizedInput_le (t : String) :
    wordCountStr (normalizedInput t) ≤ wordCountStr t := by
  unfold normalizedInput
  split
  · exact le_refl _
  · exact wordsChars_take_length_le t.data MAX_INPUT_LENGTH

theorem normalizedInput_eq_self (m : String) (h0 : m ≠ "") (hl : m.length ≤ 1000) :
    normalizedInput m = m := by
  obtain ⟨l⟩ := m
  have hl0 : l ≠ [] := by
    intro h
    exact h0 (by simp [h])
  unfold normalizedInput isValidInput
  rw [if_pos]
  simp only [MAX_INPUT_LENGTH, String.length] at hl ⊢
  simp [hl, List.length_pos.mpr hl0]

theorem mainPipeline_notCand (sqrtQ : ℚ → ℚ) (env : Env) (st : Db)
    (normalized : String) (usingCached : Bool) (ci : Option String)
    (cr : Option RouteCategory) (cf : Option Nat) (crp : Bool) :
    mainPipeline sqrtQ env st normalized false usingCached ci cr cf crp
      = mainCore sqrtQ env st usingCached cr cf crp
          (usingCached && jsTruthyOptStr ci)
          (if usingCached && jsTruthyOptStr ci then ci.getD ""
           else rewriteToCanonicalIntent env.intentLLM
             (translateToEnglishM env.translateIn normalized
               (detectLanguage normalized)))
          (detectLanguage normalized) := by
  unfold mainPipeline
  simp

theorem mainPipeline_fresh_bookkeeping (sqrtQ : ℚ → ℚ) (env : Env) (st : Db)
    (normalized : String) (isCand crp : Bool) :
    (mainPipeline sqrtQ env st normalized isCand false none none none
        crp).cacheReadPerformed = crp ∧
    (mainPipeline sqrtQ env st normalized isCand false none none none
        crp).usedCachedIntent = false ∧
    (mainPipeline sqrtQ env st normalized isCand false none none none
        crp).usedCachedRoute = false ∧
    (mainPipeline sqrtQ env st normalized isCand false none none none
        crp).intentCalls = 1 := by
  refine ⟨?_, ?_, ?_, ?_⟩
  · unfold mainPipeline
    simp only [Bool.false_and, Bool.false_eq_true, if_false]
    split
    · rfl
    · exact (mainCore_bookkeeping ..).1
  · unfold mainPipeline
    simp only [Bool.false_and, Bool.false_eq_true, if_false]
    split
    · rfl
    · exact (mainCore_bookkeeping ..).2.1
  · unfold mainPipeline
    simp only [Bool.false_and, Bool.false_eq_true, if_false]
    split
    · rfl
    · rw [(mainCore_bookkeeping ..).2.2.2.2.1]
      rfl
  · unfold mainPipeline
    simp only [Bool.false_and, Bool.false_eq_true, if_false]
    split
    · rfl
    · rw [(mainCore_bookkeeping ..).2.2.1]
      rfl

theorem updLastUser_singleton (f : MsgRow → MsgRow) (r : MsgRow)
    (h : r.sender = "user") : updLastUser f [r] = [f r] := by
  simp [updLastUser, h]

theorem cacheLookup_fresh (m : String) :
    cacheLookup [mkUserRow m] m PIPELINE_VERSION = none := by
  simp [cacheLookup, mkUserRow]

theorem cacheLookup_after_write (m : String) (row1 : MsgRow)
    (hs : row1.sender = "user") (htext : row1.text = m)
    (hv : row1.pipeline_version = some PIPELINE_VERSION)
    (hr : row1.route.isSome = true) :
    cacheLookup [row1, mkUserRow m] m PIPELINE_VERSION = some row1 := by
  simp [cacheLookup, mkUserRow, hs, htext, hv, hr]

theorem fullHitLookup_no_bots (msgs : List MsgRow) (row : MsgRow)
    (h : ∀ r ∈ msgs, r.sender = "user") : fullHitLookup msgs row = none := by
  unfold fullHitLookup
  cases hq : row.query_id with
  | none => rfl
  | some q =>
    simp only []
    by_cases h0 : q = ""
    · rw [if_pos h0]
    · rw [if_neg h0]
      rw [List.find?_eq_none]
      intro r hr
      have := h r hr
      simp [this]

/-! ## Helper lemmas: the FAQ branch -/

theorem faqBranch_cachedNull (sqrtQ : ℚ → ℚ) (env : Env) (faqs : List Faq)
    (media : List MediaItem) (ci : String) :
    faqBranch sqrtQ env faqs media true none ci
      = { selectedFAQ := none, resolvedFaqId := none,
          answer := genAnswerOr env.faqGen (SAFE_FALLBACKS .english),
          mediaUrls := [], matcherRuns := 0, embedCalls := 0, selectCalls := 0,
          faqGenCalls := 1 } := rfl

theorem faqBranch_fresh_matcherRuns (sqrtQ : ℚ → ℚ) (env : Env) (faqs : List Faq)
    (media : List MediaItem) (ci : String) :
    (faqBranch sqrtQ env faqs media false none ci).matcherRuns = 1 := by
  unfold faqBranch
  rcases h : env.embed with e | emb
  · simp [h]
  · by_cases h0 : 0 < emb.length
    · simp only [h, h0, if_true, if_pos h0]
      cases hs : selectBestFAQWithLLM ci (getTopFAQs sqrtQ emb faqs 5) env.faqSelect <;>
        simp [hs]
    · simp [h, h0]

theorem faqBranch_fresh_resolved_found (sqrtQ : ℚ → ℚ) (env : Env)
    (faqs : List Faq) (media : List MediaItem) (ci : String) (cid : Nat)
    (h : (faqBranch sqrtQ env faqs media false none ci).resolvedFaqId = some cid) :
    ∃ g ∈ faqs, g.id = cid := by
  unfold faqBranch at h
  rcases he : env.embed with e | emb
  · rw [he] at h
    simp at h
  · rw [he] at h
    by_cases h0 : 0 < emb.length
    · simp only [h0, if_true, if_pos h0] at h
      cases hs : selectBestFAQWithLLM ci (getTopFAQs sqrtQ emb faqs 5) env.faqSelect with
      | none => rw [hs] at h; simp at h
      | some f =>
        rw [hs] at h
        have hmem : f ∈ (getTopFAQs sqrtQ emb faqs 5).map Prod.fst :=
          selectBestFAQ_mem ci _ _ f hs
        obtain ⟨p, hp, rfl⟩ := List.mem_map.mp hmem
        refine ⟨p.1, getTopFAQs_fst_mem sqrtQ emb faqs 5 hp, ?_⟩
        simpa using h
    · simp [h0] at h

theorem faqBranch_cachedSome (sqrtQ : ℚ → ℚ) (env : Env) (faqs : List Faq)
    (media : List MediaItem) (ci : String) (cid : Nat)
    (h : ∃ g ∈ faqs, g.id = cid) :
    (faqBranch sqrtQ env faqs media true (some cid) ci).resolvedFaqId = some cid ∧
    (faqBranch sqrtQ env faqs media true (some cid) ci).matcherRuns = 0 ∧
    (faqBranch sqrtQ env faqs media true (some cid) ci).embedCalls = 0 ∧
    (faqBranch sqrtQ env faqs media true (some cid) ci).selectCalls = 0 := by
  obtain ⟨g, hg, hgid⟩ := h
  have hsome : (faqs.find? (fun f => f.id = cid)).isSome := by
    rw [List.find?_isSome]
    exact ⟨g, hg, by simp [hgid]⟩
  obtain ⟨g', hg'⟩ := Option.isSome_iff_exists.mp hsome
  have hgid' : g'.id = cid := by simpa using List.find?_some hg'
  unfold faqBranch
  simp [hg', hgid']

theorem mainCore_cachedRoute_fields (sqrtQ : ℚ → ℚ) (env : Env) (st : Db)
    (cf : Option Nat) (crp useCI : Bool) (ci : String) (lang : Lang)
    (r : RouteCategory) :
    (mainCore sqrtQ env st true (some r) cf crp useCI ci lang).route = some r ∧
    (mainCore sqrtQ env st true (some r) cf crp useCI ci lang).routerCalls = 0 ∧
    (r = .FAQ →
      (mainCore sqrtQ env st true (some r) cf crp useCI ci lang).resolvedFaqId
          = (faqBranch sqrtQ env st.faqs st.media true cf ci).resolvedFaqId ∧
      (mainCore sqrtQ env st true (some r) cf crp useCI ci lang).matcherRuns
          = (faqBranch sqrtQ env st.faqs st.media true cf ci).matcherRuns ∧
      (mainCore sqrtQ env st true (some r) cf crp useCI ci lang).embedCalls
          = (faqBranch sqrtQ env st.faqs st.media true cf ci).embedCalls ∧
      (mainCore sqrtQ env st true (some r) cf crp useCI ci lang).selectCalls
          = (faqBranch sqrtQ env st.faqs st.media true cf ci).selectCalls ∧
      (mainCore sqrtQ env st true (some r) cf crp useCI ci lang).faqGenCalls
          = (faqBranch sqrtQ env st.faqs st.media true cf ci).faqGenCalls ∧
      (mainCore sqrtQ env st true (some r) cf crp useCI ci lang).faqId
          = (match (faqBranch sqrtQ env st.faqs st.media true cf ci).selectedFAQ with
              | some f => if f.id = 0 then none else some f.id
              | none => none)) ∧
    (r ≠ .FAQ →
      (mainCore sqrtQ env st true (some r) cf crp useCI ci lang).resolvedFaqId = none ∧
      (mainCore sqrtQ env st true (some r) cf crp useCI ci lang).matcherRuns = 0 ∧
      (mainCore sqrtQ env st true (some r) cf crp useCI ci lang).embedCalls = 0 ∧
      (mainCore sqrtQ env st true (some r) cf crp useCI ci lang).selectCalls = 0 ∧
      (mainCore sqrtQ env st true (some r) cf crp useCI ci lang).faqGenCalls = 0 ∧
      (mainCore sqrtQ env st true (some r) cf crp useCI ci lang).faqId = none) := by
  refine ⟨rfl, rfl, ?_, ?_⟩
  · rintro rfl
    exact ⟨rfl, rfl, rfl, rfl, rfl, rfl⟩
  · intro hr
    cases r with
    | GREETING => exact ⟨rfl, rfl, rfl, rfl, rfl, rfl⟩
    | META => exact ⟨rfl, rfl, rfl, rfl, rfl, rfl⟩
    | IRRELEVANT => exact ⟨rfl, rfl, rfl, rfl, rfl, rfl⟩
    | GENERAL => exact ⟨rfl, rfl, rfl, rfl, rfl, rfl⟩
    | FAQ => exact absurd rfl hr
    | EDUCATION =>
      rcases he : env.eduGen with e | c <;>
        refine ⟨?_, ?_, ?_, ?_, ?_, ?_⟩ <;>
          simp [mainCore, he]

theorem mainCore_fresh_route_fields (sqrtQ : ℚ → ℚ) (env : Env) (st : Db)
    (crp : Bool) (ci : String) (lang : Lang) :
    (mainCore sqrtQ env st false none none crp false ci lang).route
        = some (strictRouter env.routerKey env.routerPrimary env.routerSecondary) ∧
    (mainCore sqrtQ env st false none none crp false ci lang).routerCalls = 1 ∧
    (strictRouter env.routerKey env.routerPrimary env.routerSecondary = .FAQ →
      (mainCore sqrtQ env st false none none crp false ci lang).resolvedFaqId
          = (faqBranch sqrtQ env st.faqs st.media false none ci).resolvedFaqId ∧
      (mainCore sqrtQ env st false none none crp false ci lang).matcherRuns
          = (faqBranch sqrtQ env st.faqs st.media false none ci).matcherRuns) ∧
    (strictRouter env.routerKey env.routerPrimary env.routerSecondary ≠ .FAQ →
      (mainCore sqrtQ env st false none none crp false ci lang).resolvedFaqId = none ∧
      (mainCore sqrtQ env st false none none crp false ci lang).matcherRuns = 0) := by
  refine ⟨rfl, rfl, ?_, ?_⟩
  · intro h
    constructor <;> simp [mainCore, h]
  · intro h
    rcases hr : strictRouter env.routerKey env.routerPrimary env.routerSecondary
    case FAQ => exact absurd hr h
    case EDUCATION =>
      rcases he : env.eduGen with e | c <;>
        constructor <;> simp [mainCore, hr, he]
    all_goals constructor <;> simp [mainCore, hr]

theorem handler_fresh_run (sqrtQ : ℚ → ℚ) (env : Env) (faqs : List Faq)
    (media : List MediaItem) (sugg : List SuggGroup) (m u : String)
    (ht : strTrim m = m) (hm0 : m ≠ "") (hlen : m.length ≤ 1000)
    (hw : 3 < wordCountStr m) (hu : u ≠ "")
    (hen : cacheEnabledOf env.settings = true) :
    handler sqrtQ env ⟨[mkUserRow m], faqs, media, sugg⟩ m u none
      = mainCore sqrtQ env ⟨[mkUserRow m], faqs, media, sugg⟩ false none none
          true false
          (rewriteToCanonicalIntent env.intentLLM
            (translateToEnglishM env.translateIn m (detectLanguage m)))
          (detectLanguage m) := by
  have hm : strTrim m ≠ "" := by
    rw [ht]
    exact hm0
  rw [handler_eq_handlerMain sqrtQ env _ m u hm hu]
  rw [ht, normalizedInput_eq_self m hm0 hlen]
  have hcand : decide (wordCountStr m ≤ 3) = false := by
    simp
    omega
  rw [hcand]
  unfold handlerMain
  simp only [hen, cacheProbe, Bool.not_false, Bool.and_self, if_true,
    cacheLookup_fresh]
  rw [mainPipeline_notCand]
  simp only [Bool.false_and, Bool.false_eq_true, if_false]

end DentalCare

namespace DentalCare

/-! ## Claim C5 -/

/-- C5: for every completion-service reply, the FAQ selection returns null
on a `NONE` reply, on an out-of-range index (0, or beyond the candidate
count), and on an unparsable reply; any FAQ it does return is one of the
presented candidates — it never indexes outside the candidate list. -/
theorem selectBestFAQ_precision_gate (ci : String) (top : List (Faq × ℚ))
    (llm : Except Unit (Option String)) :
    (∀ f, selectBestFAQWithLLM ci top llm = some f → f ∈ top.map Prod.fst) ∧
    (∀ c, llm = .ok (some c) → strToUpper (strTrim c) = "NONE" →
      selectBestFAQWithLLM ci top llm = none) ∧
    (∀ c n, llm = .ok (some c) →
      parseLeadingNat (strToUpper (strTrim c)) = some n →
      (n = 0 ∨ top.length < n) →
      selectBestFAQWithLLM ci top llm = none) ∧
    (∀ c, llm = .ok (some c) → strToUpper (strTrim c) ≠ "NONE" →
      parseLeadingNat (strToUpper (strTrim c)) = none →
      selectBestFAQWithLLM ci top llm = none) := by
  refine ⟨fun f h => selectBestFAQ_mem ci top llm f h, ?_, ?_, ?_⟩
  · rintro c rfl hNONE
    unfold selectBestFAQWithLLM
    by_cases h0 : top.length = 0
    · rw [if_pos h0]
    · rw [if_neg h0]
      simp only []
      rw [if_pos hNONE]
  · rintro c n rfl hp hrange
    unfold selectBestFAQWithLLM
    by_cases h0 : top.length = 0
    · rw [if_pos h0]
    · rw [if_neg h0]
      simp only []
      by_cases hNONE : strToUpper (strTrim c) = "NONE"
      · rw [if_pos hNONE]
      · rw [if_neg hNONE, hp]
        simp only []
        rw [if_neg]
        rintro ⟨hg1, hg2⟩
        rcases hrange with h | h
        · subst h
          simp at hg1
        · have : ((n : Int) - 1) < (top.length : Int) := hg2
          omega
  · rintro c rfl hNONE hp
    unfold selectBestFAQWithLLM
    by_cases h0 : top.length = 0
    · rw [if_pos h0]
    · rw [if_neg h0]
      simp only []
      rw [if_neg hNONE, hp]

/-! ## Claim C8 -/

/-- C8: when the FAQ-selection completion call throws, the matcher falls
back to the highest-scoring candidate exactly when that candidate's raw
similarity exceeds 0.5, and otherwise returns null; when the embedding
call throws, there are no scored candidates and the fresh-search branch
resolves to null and falls through to answer generation. -/
theorem faqMatcher_failure_fallback (sqrtQ : ℚ → ℚ) (env : Env) (faqs : List Faq)
    (media : List MediaItem) (ci : String) (top : Faq × ℚ) (rest : List (Faq × ℚ)) :
    (1 / 2 < top.2 →
      selectBestFAQWithLLM ci (top :: rest) (.error ()) = some top.1) ∧
    (top.2 ≤ 1 / 2 →
      selectBestFAQWithLLM ci (top :: rest) (.error ()) = none) ∧
    selectBestFAQWithLLM ci [] (.error ()) = none ∧
    (env.embed = .error () →
      (faqBranch sqrtQ env faqs media false none ci).selectedFAQ = none ∧
      (faqBranch sqrtQ env faqs media false none ci).resolvedFaqId = none ∧
      (faqBranch sqrtQ env faqs media false none ci).embedCalls = 1 ∧
      (faqBranch sqrtQ env faqs media false none ci).faqGenCalls = 1) := by
  refine ⟨?_, ?_, rfl, ?_⟩
  · intro h
    unfold selectBestFAQWithLLM
    rw [if_neg (by simp)]
    simp only [faqSelectionFallback]
    rw [if_pos h]
  · intro h
    unfold selectBestFAQWithLLM
    rw [if_neg (by simp)]
    simp only [faqSelectionFallback]
    rw [if_neg (not_lt.mpr h)]
  · intro h
    refine ⟨?_, ?_, ?_, ?_⟩ <;> simp [faqBranch, h]

/-! ## Claim C2 -/

/-- C2 (amended): two back-to-back requests with the same already-trimmed
raw text of more than 3 words (and within the length cap), caching
enabled, an empty prior message log, and a non-empty computed intent:
the second request's canonical intent, route and resolved FAQ id equal
the first's; the Strict Router runs exactly once across both requests;
the FAQ Matcher runs at most once — exactly once when the route is FAQ
and never otherwise. -/
theorem cache_round_trip (sqrtQ : ℚ → ℚ) (env1 env2 : Env)
    (faqs : List Faq) (media : List MediaItem) (sugg : List SuggGroup)
    (m u : String)
    (ht : strTrim m = m) (hm0 : m ≠ "") (hlen : m.length ≤ 1000)
    (hw : 3 < wordCountStr m) (hu : u ≠ "")
    (hen1 : cacheEnabledOf env1.settings = true)
    (hen2 : cacheEnabledOf env2.settings = true)
    (hI : rewriteToCanonicalIntent env1.intentLLM
        (translateToEnglishM env1.translateIn m (detectLanguage m)) ≠ "") :
    (twoRequests sqrtQ env1 env2 ⟨[], faqs, media, sugg⟩ m u).2.canonicalIntent
        = (twoRequests sqrtQ env1 env2 ⟨[], faqs, media, sugg⟩ m u).1.canonicalIntent ∧
    (twoRequests sqrtQ env1 env2 ⟨[], faqs, media, sugg⟩ m u).2.route
        = (twoRequests sqrtQ env1 env2 ⟨[], faqs, media, sugg⟩ m u).1.route ∧
    (twoRequests sqrtQ env1 env2 ⟨[], faqs, media, sugg⟩ m u).2.resolvedFaqId
        = (twoRequests sqrtQ env1 env2 ⟨[], faqs, media, sugg⟩ m u).1.resolvedFaqId ∧
    (twoRequests sqrtQ env1 env2 ⟨[], faqs, media, sugg⟩ m u).1.routerCalls
        + (twoRequests sqrtQ env1 env2 ⟨[], faqs, media, sugg⟩ m u).2.routerCalls
        = 1 ∧
    (twoRequests sqrtQ env1 env2 ⟨[], faqs, media, sugg⟩ m u).1.matcherRuns
        + (twoRequests sqrtQ env1 env2 ⟨[], faqs, media, sugg⟩ m u).2.matcherRuns
        ≤ 1 ∧
    ((twoRequests sqrtQ env1 env2 ⟨[], faqs, media, sugg⟩ m u).1.route
        = some .FAQ →
      (twoRequests sqrtQ env1 env2 ⟨[], faqs, media, sugg⟩ m u).1.matcherRuns
        + (twoRequests sqrtQ env1 env2 ⟨[], faqs, media, sugg⟩ m u).2.matcherRuns
        = 1) ∧
    ((twoRequests sqrtQ env1 env2 ⟨[], faqs, media, sugg⟩ m u).1.route
        ≠ some .FAQ →
      (twoRequests sqrtQ env1 env2 ⟨[], faqs, media, sugg⟩ m u).1.matcherRuns
        + (twoRequests sqrtQ env1 env2 ⟨[], faqs, media, sugg⟩ m u).2.matcherRuns
        = 0) := by
  have hm : strTrim m ≠ "" := by
    rw [ht]
    exact hm0
  have hcand : decide (wordCountStr m ≤ 3) = false := by
    simp
    omega
  set L := detectLanguage m with hL
  set I1 := rewriteToCanonicalIntent env1.intentLLM
    (translateToEnglishM env1.translateIn m L) with hI1
  set R1 := strictRouter env1.routerKey env1.routerPrimary env1.routerSecondary
    with hR1
  set st1 : Db := ⟨[mkUserRow m], faqs, media, sugg⟩ with hst1
  set r1 := mainCore sqrtQ env1 st1 false none none true false I1 L with hr1def
  have e1 : (twoRequests sqrtQ env1 env2 ⟨[], faqs, media, sugg⟩ m u).1 = r1 := by
    show handler sqrtQ env1 st1 m u none = r1
    rw [hr1def, hst1, hI1, hL]
    exact handler_fresh_run sqrtQ env1 faqs media sugg m u ht hm0 hlen hw hu hen1
  set fid1 := r1.resolvedFaqId with hfid1
  set row1 : MsgRow :=
    ⟨"user", m, some I1, some R1, fid1, some PIPELINE_VERSION,
      some env1.queryId, [], []⟩ with hrow1
  have r1_msgs : r1.messages = [row1] := by
    have h0 : r1.messages
        = updLastUser (fun r =>
            { r with canonical_intent := some I1, route := some R1,
                     resolved_faq_id := fid1,
                     pipeline_version := some PIPELINE_VERSION,
                     query_id := some env1.queryId }) [mkUserRow m] := rfl
    rw [h0, updLastUser_singleton _ _ rfl]
    rfl
  set st2 : Db := ⟨[row1, mkUserRow m], faqs, media, sugg⟩ with hst2
  have e2 : (twoRequests sqrtQ env1 env2 ⟨[], faqs, media, sugg⟩ m u).2
      = handler sqrtQ env2 st2 m u none := by
    have h0 : (twoRequests sqrtQ env1 env2 ⟨[], faqs, media, sugg⟩ m u).2
        = handler sqrtQ env2
            ⟨(twoRequests sqrtQ env1 env2 ⟨[], faqs, media, sugg⟩ m u).1.messages
              ++ [mkUserRow m], faqs, media, sugg⟩ m u none := rfl
    rw [h0, e1, r1_msgs]
    rfl
  set r2 := mainCore sqrtQ env2 st2 true (some R1) fid1 true true I1 L with hr2def
  have f2 : handler sqrtQ env2 st2 m u none = r2 := by
    rw [handler_eq_handlerMain sqrtQ env2 st2 m u hm hu, ht,
      normalizedInput_eq_self m hm0 hlen, hcand]
    unfold handlerMain
    have hmsg : st2.messages = [row1, mkUserRow m] := rfl
    simp only [hen2, cacheProbe, Bool.not_false, Bool.and_self, if_true, hmsg]
    rw [cacheLookup_after_write m row1 rfl rfl rfl rfl]
    simp only []
    rw [fullHitLookup_no_bots [row1, mkUserRow m] row1 (by
      intro r hr
      rcases List.mem_cons.mp hr with h | h2
      · rw [h]
      · rw [List.mem_singleton.mp h2]
        rfl)]
    have hq1 : jsTruthyOptStr row1.canonical_intent = true := by
      simp [hrow1, jsTruthyOptStr, hI]
    have hq2 : row1.route.isSome = true := rfl
    simp only [hq1, hq2, and_self, ite_true]
    have hg1 : row1.canonical_intent.getD "" = I1 := rfl
    have hg2 : row1.route.getD .GENERAL = R1 := rfl
    have hg3 : row1.resolved_faq_id = fid1 := rfl
    simp only [hg1, hg2, hg3]
    have hTruthy : jsTruthyOptStr (some I1) = true := by
      simp [jsTruthyOptStr, hI]
    simp only [mainPipeline_notCand, hTruthy, Bool.and_self, Option.getD_some,
      if_true, ite_true, ← hL, hr2def]
  rw [e1, e2, f2]
  have hR2fields := mainCore_cachedRoute_fields sqrtQ env2 st2 fid1 true true I1 L R1
  have hR1fields := mainCore_fresh_route_fields sqrtQ env1 st1 true I1 L
  rw [← hR1] at hR1fields
  rw [← hr1def] at hR1fields
  rw [← hr2def] at hR2fields
  refine ⟨rfl, ?_, ?_, rfl, ?_, ?_, ?_⟩
  · rw [hR2fields.1, hR1fields.1]
  · by_cases hF : R1 = .FAQ
    · have h1 := (hR1fields.2.2.1 hF).1
      have h2 := (hR2fields.2.2.1 hF).1
      rw [h1, h2]
      rw [← h1, ← hfid1]
      cases hfid : fid1 with
      | none => rw [faqBranch_cachedNull]
      | some cid =>
        have hfound : (faqBranch sqrtQ env1 st1.faqs st1.media false none
            I1).resolvedFaqId = some cid := by
          rw [← h1, ← hfid1, hfid]
        have hex : ∃ g ∈ st1.faqs, g.id = cid :=
          faqBranch_fresh_resolved_found sqrtQ env1 st1.faqs st1.media I1 cid hfound
        have hex2 : ∃ g ∈ st2.faqs, g.id = cid := hex
        exact (faqBranch_cachedSome sqrtQ env2 st2.faqs st2.media I1 cid hex2).1
    · rw [(hR1fields.2.2.2 hF).1, (hR2fields.2.2.2 hF).1]
  · by_cases hF : R1 = .FAQ
    · have h1 := (hR1fields.2.2.1 hF).2
      have h2 := (hR2fields.2.2.1 hF).2.1
      rw [h1, h2, faqBranch_fresh_matcherRuns]
      cases hfid : fid1 with
      | none =>
        rw [faqBranch_cachedNull]
        simp
      | some cid =>
        have hfound : (faqBranch sqrtQ env1 st1.faqs st1.media false none
            I1).resolvedFaqId = some cid := by
          rw [← (hR1fields.2.2.1 hF).1, ← hfid1, hfid]
        have hex : ∃ g ∈ st2.faqs, g.id = cid :=
          faqBranch_fresh_resolved_found sqrtQ env1 st1.faqs st1.media I1 cid hfound
        rw [(faqBranch_cachedSome sqrtQ env2 st2.faqs st2.media I1 cid hex).2.1]
    · rw [(hR1fields.2.2.2 hF).2, (hR2fields.2.2.2 hF).2.1]
      simp
  · intro hroute
    have hF : R1 = .FAQ := by
      rw [hR1fields.1] at hroute
      exact Option.some.inj hroute
    have h1 := (hR1fields.2.2.1 hF).2
    have h2 := (hR2fields.2.2.1 hF).2.1
    rw [h1, h2, faqBranch_fresh_matcherRuns]
    cases hfid : fid1 with
    | none =>
      rw [faqBranch_cachedNull]
      rfl
    | some cid =>
      have hfound : (faqBranch sqrtQ env1 st1.faqs st1.media false none
          I1).resolvedFaqId = some cid := by
        rw [← (hR1fields.2.2.1 hF).1, ← hfid1, hfid]
      have hex : ∃ g ∈ st2.faqs, g.id = cid :=
        faqBranch_fresh_resolved_found sqrtQ env1 st1.faqs st1.media I1 cid hfound
      rw [(faqBranch_cachedSome sqrtQ env2 st2.faqs st2.media I1 cid hex).2.1]
  · intro hroute
    have hF : R1 ≠ .FAQ := by
      intro h
      exact hroute (by rw [hR1fields.1, h])
    rw [(hR1fields.2.2.2 hF).2, (hR2fields.2.2.2 hF).2.1]

/-! ## Claim C10 -/

/-- C10: for every incoming message whose trimmed text has at most 3
whitespace-separated words (a suggestion candidate), the cache read is
skipped entirely — for every cache-gate state and every store, including
one holding an identical completed prior message — and the canonical
intent is recomputed and the route is never taken from the cache. -/
theorem suggestionCandidate_skips_cache (sqrtQ : ℚ → ℚ) (env : Env) (st : Db)
    (m u : String) (hm : strTrim m ≠ "") (hu : u ≠ "")
    (hw : wordCountStr (strTrim m) ≤ 3) :
    (handler sqrtQ env st m u none).cacheReadPerformed = false ∧
    (handler sqrtQ env st m u none).usedCachedIntent = false ∧
    (handler sqrtQ env st m u none).usedCachedRoute = false ∧
    (handler sqrtQ env st m u none).intentCalls = 1 := by
  rw [handler_eq_handlerMain sqrtQ env st m u hm hu]
  have hle := wordCountStr_normalizedInput_le (strTrim m)
  have hcand : decide (wordCountStr (normalizedInput (strTrim m)) ≤ 3) = true := by
    simp
    omega
  rw [hcand]
  unfold handlerMain
  simp only [cacheProbe, Bool.not_true, Bool.and_false, Bool.false_eq_true,
    if_false]
  exact ⟨(mainPipeline_fresh_bookkeeping ..).1,
    (mainPipeline_fresh_bookkeeping ..).2.1,
    (mainPipeline_fresh_bookkeeping ..).2.2.1,
    (mainPipeline_fresh_bookkeeping ..).2.2.2⟩

/-! ## Claim C1 -/

/-- C1: on a partial cache hit whose cached route is FAQ and whose cached
`resolved_faq_id` is null, the pipeline trusts the null — it issues no
embedding call and no FAQ-selection call, runs no fresh FAQ search, and
answers through the generation fallback with a null FAQ id. -/
theorem cachedNullFaq_trusted (sqrtQ : ℚ → ℚ) (env : Env) (st : Db)
    (m u : String) (row : MsgRow)
    (hm : strTrim m ≠ "") (hu : u ≠ "")
    (hw : 3 < wordCountStr (normalizedInput (strTrim m)))
    (hen : cacheEnabledOf env.settings = true)
    (hrow : cacheLookup st.messages (normalizedInput (strTrim m)) PIPELINE_VERSION
      = some row)
    (hfull : fullHitLookup st.messages row = none)
    (hint : jsTruthyOptStr row.canonical_intent = true)
    (hroute : row.route = some .FAQ)
    (hfaq : row.resolved_faq_id = none) :
    (handler sqrtQ env st m u none).embedCalls = 0 ∧
    (handler sqrtQ env st m u none).selectCalls = 0 ∧
    (handler sqrtQ env st m u none).matcherRuns = 0 ∧
    (handler sqrtQ env st m u none).faqGenCalls = 1 ∧
    (handler sqrtQ env st m u none).faqId = none ∧
    (handler sqrtQ env st m u none).resolvedFaqId = none := by
  rw [handler_eq_handlerMain sqrtQ env st m u hm hu]
  have hcand : decide (wordCountStr (normalizedInput (strTrim m)) ≤ 3) = false := by
    simp
    omega
  rw [hcand]
  unfold handlerMain
  simp only [cacheProbe, hen, Bool.not_false, Bool.and_true, Bool.and_self,
    if_true, hrow, hfull, hint, hroute, hfaq, Option.isSome_some, and_self,
    ite_true]
  rw [mainPipeline_notCand]
  simp only [Option.getD_some]
  refine ⟨?_, ?_, ?_, ?_, ?_, ?_⟩
  · rw [((mainCore_cachedRoute_fields ..).2.2.1 rfl).2.2.1, faqBranch_cachedNull]
  · rw [((mainCore_cachedRoute_fields ..).2.2.1 rfl).2.2.2.1, faqBranch_cachedNull]
  · rw [((mainCore_cachedRoute_fields ..).2.2.1 rfl).2.1, faqBranch_cachedNull]
  · rw [((mainCore_cachedRoute_fields ..).2.2.1 rfl).2.2.2.2.1, faqBranch_cachedNull]
  · rw [((mainCore_cachedRoute_fields ..).2.2.1 rfl).2.2.2.2.2, faqBranch_cachedNull]
  · rw [((mainCore_cachedRoute_fields ..).2.2.1 rfl).1, faqBranch_cachedNull]

/-! ## Claim C9 -/

/-- C9: the cache gate fails open. Caching is treated as disabled exactly
when the stored setting value is the string `'false'`; an absent row or a
thrown settings read leaves caching enabled, and an enabled gate on a
non-short query always proceeds to the cache lookup. -/
theorem cacheGate_fail_open :
    (∀ r : Except Unit (Option String),
      cacheEnabledOf r = false ↔ r = .ok (some "false")) ∧
    cacheEnabledOf (.ok none) = true ∧
    cacheEnabledOf (.error ()) = true ∧
    (∀ (sqrtQ : ℚ → ℚ) (env : Env) (st : Db) (m u : String),
      strTrim m ≠ "" → u ≠ "" →
      cacheEnabledOf env.settings = true →
      3 < wordCountStr (normalizedInput (strTrim m)) →
      (handler sqrtQ env st m u none).cacheReadPerformed = true) := by
  refine ⟨?_, rfl, rfl, ?_⟩
  · intro r
    match r with
    | .ok (some v) =>
      constructor
      · intro h
        by_cases hv : v = "false"
        · simp [hv]
        · simp [cacheEnabledOf, hv] at h
      · intro h
        obtain rfl : v = "false" := by simpa using h
        rfl
    | .ok none => simp [cacheEnabledOf]
    | .error e => simp [cacheEnabledOf]
  · intro sqrtQ env st m u hm hu hen hw
    have hm0 : m ≠ "" := by
      intro h
      apply hm
      rw [h]
      rfl
    have hcand : decide (wordCountStr (normalizedInput (strTrim m)) ≤ 3) = false := by
      simp
      omega
    simp only [handler, hm0, hu, or_self, if_false, hm, ite_false, if_neg,
      not_false_eq_true]
    simp only [handlerMain, hen, hcand, cacheProbe, Bool.not_false, Bool.and_self]
    cases hl : cacheLookup st.messages (normalizedInput (strTrim m)) PIPELINE_VERSION with
    | none => simp [mainPipeline, (mainCore_bookkeeping ..).1]
    | some row =>
      cases hf : fullHitLookup st.messages row with
      | some bot => simp [hf]
      | none =>
        by_cases hp : jsTruthyOptStr row.canonical_intent = true ∧ row.route.isSome = true
        · simp [hf, hp, mainPipeline, (mainCore_bookkeeping ..).1]
        · simp [hf, hp, mainPipeline, (mainCore_bookkeeping ..).1]

/-! ## Claim C3 -/

/-- C3: the Strict Router is total — for every canonical-intent input and
every outcome of the two backends it returns one of the six labels and
never throws; if the primary backend is unconfigured (falsy key) it
yields nothing, and when neither backend yields a recognised label the
router returns the fixed default `EDUCATION`. -/
theorem strictRouter_total_and_default (apiKey : Option String)
    (pri : FetchOutcome) (sec : Except Unit (Option String)) :
    strictRouter apiKey pri sec
        ∈ ([.GREETING, .META, .IRRELEVANT, .EDUCATION, .FAQ, .GENERAL] :
            List RouteCategory) ∧
    (jsTruthyOptStr apiKey = false → primaryRoute apiKey pri = none) ∧
    (primaryRoute apiKey pri = none → secondaryRoute sec = none →
      strictRouter apiKey pri sec = .EDUCATION) := by
  refine ⟨?_, ?_, ?_⟩
  · cases h : strictRouter apiKey pri sec <;> simp
  · intro h
    simp [primaryRoute, h]
  · intro h1 h2
    simp [strictRouter, h1, h2]

/-! ## Claim C4 -/

/-- C4 (amended): `detectLanguage` is a pure total function; it returns
`urdu` exactly when some character lies in the Urdu script range
(regardless of keyword counts), otherwise `roman` exactly when at least 2
DISTINCT keywords of the fixed Roman-Urdu list occur whole-word
case-insensitively in the lowercased text, and `english` otherwise. -/
theorem detectLanguage_characterization (t : String) :
    (detectLanguage t = .urdu ↔ hasUrduScript t = true) ∧
    (detectLanguage t = .roman ↔
      hasUrduScript t = false ∧ 2 ≤ distinctRomanUrduKeywordCount t) ∧
    (detectLanguage t = .english ↔
      hasUrduScript t = false ∧ distinctRomanUrduKeywordCount t < 2) := by
  have hd : detectLanguage t =
      if t = "" then .english
      else if hasUrduScript t then .urdu
      else if 2 ≤ distinctRomanUrduKeywordCount t then .roman else .english := rfl
  by_cases h0 : t = ""
  · subst h0
    have hcount : distinctRomanUrduKeywordCount "" = 0 := by decide
    have hurdu : hasUrduScript "" = false := by decide
    rw [hd]
    simp [hurdu, hcount]
  · by_cases hu : hasUrduScript t
    · rw [hd]
      simp [h0, hu]
    · by_cases hk : 2 ≤ distinctRomanUrduKeywordCount t
      · rw [hd]
        simp only [h0, hu, hk, if_true, if_false, ite_false, ite_true,
          Bool.false_eq_true]
        refine ⟨by simp, by simp [eq_false_of_ne_true hu, hk], ?_⟩
        simp [eq_false_of_ne_true hu]
        omega
      · rw [hd]
        simp only [h0, hu, hk, if_true, if_false, ite_false, ite_true]
        refine ⟨by simp, ?_, ?_⟩
        · simp [eq_false_of_ne_true hu]
          try omega
        · simp [eq_false_of_ne_true hu]
          try omega

/-- C4 counterexample: the claim as stated counts TOTAL whole-word keyword
occurrences; on `"kya kya"` that count is 2 (so the claim predicts
`roman-urdu`), yet the source counts distinct keywords, finds 1, and
returns `english`. -/
theorem detectLanguage_total_occurrences_cex :
    detectLanguage "kya kya" = .english ∧
    hasUrduScript "kya kya" = false ∧
    2 ≤ totalRomanUrduOccurrences "kya kya" ∧
    distinctRomanUrduKeywordCount "kya kya" = 1 := by
  refine ⟨by decide, by decide, by decide, by decide⟩

/-! ## Claim C6 -/

theorem sumSq_eq_zero_of_all_zero (l : List ℚ) (h : ∀ x ∈ l, x = 0) :
    sumSq l = 0 := by
  induction l with
  | nil => rfl
  | cons a as ih =>
    have ha : a = 0 := h a (by simp)
    have ih' : dotQ as as = 0 := ih fun x hx => h x (by simp [hx])
    simp [sumSq, dotQ, ha] at ih' ⊢
    exact ih'

/-- C6: `cosineSimilarity` returns exactly 0 — with no division performed,
hence no NaN and no exception — when either vector is empty, when the
lengths differ, or when either vector is all zeros (given only that the
square root of 0 is 0); the division happens only behind the non-zero
denominator guard. -/
theorem cosineSimilarity_edge_cases (sqrtQ : ℚ → ℚ) (a b : List ℚ) :
    (a = [] → cosineSimilarity sqrtQ a b = 0) ∧
    (b = [] → cosineSimilarity sqrtQ a b = 0) ∧
    (a.length ≠ b.length → cosineSimilarity sqrtQ a b = 0) ∧
    (sqrtQ 0 = 0 → (∀ x ∈ a, x = 0) → cosineSimilarity sqrtQ a b = 0) ∧
    (sqrtQ 0 = 0 → (∀ x ∈ b, x = 0) → cosineSimilarity sqrtQ a b = 0) := by
  refine ⟨?_, ?_, ?_, ?_, ?_⟩
  · intro h
    unfold cosineSimilarity
    rw [if_pos (by simp [h])]
  · intro h
    unfold cosineSimilarity
    rw [if_pos (by simp [h])]
  · intro h
    unfold cosineSimilarity
    rw [if_pos (Or.inr (Or.inr h))]
  · intro hs h
    unfold cosineSimilarity
    by_cases hg : a.length = 0 ∨ b.length = 0 ∨ a.length ≠ b.length
    · rw [if_pos hg]
    · rw [if_neg hg]
      have hz : sumSq a = 0 := sumSq_eq_zero_of_all_zero a h
      simp [hz, hs]
  · intro hs h
    unfold cosineSimilarity
    by_cases hg : a.length = 0 ∨ b.length = 0 ∨ a.length ≠ b.length
    · rw [if_pos hg]
    · rw [if_neg hg]
      have hz : sumSq b = 0 := sumSq_eq_zero_of_all_zero b h
      simp [hz, hs]

end DentalCare


namespace DentalCare

/-! ## Counterexample and witnesses -/

/-- C2 counterexample: with caching enabled and two identical raw messages
`"hi"`, the query is a suggestion candidate (≤ 3 words), the cache read
is skipped on both requests, and the Strict Router runs twice — not
"exactly once total" as the claim states for every pair of identical
requests. -/
theorem cache_round_trip_cex :
    cacheEnabledOf envG.settings = true ∧
    (twoRequests (fun x => x) envG envG db0 "hi" "Sam").1.routerCalls
        + (twoRequests (fun x => x) envG envG db0 "hi" "Sam").2.routerCalls = 2 ∧
    ¬((twoRequests (fun x => x) envG envG db0 "hi" "Sam").1.routerCalls
        + (twoRequests (fun x => x) envG envG db0 "hi" "Sam").2.routerCalls = 1) := by
  refine ⟨by decide, by decide, by decide⟩

/-- Witness for C1 at a concrete store and request. -/
theorem cachedNullFaq_trusted_witness :
    (handler (fun x => x) envG stC1 "braces wire poking cheek" "Sam"
        none).embedCalls = 0 ∧
    (handler (fun x => x) envG stC1 "braces wire poking cheek" "Sam"
        none).selectCalls = 0 ∧
    (handler (fun x => x) envG stC1 "braces wire poking cheek" "Sam"
        none).matcherRuns = 0 ∧
    (handler (fun x => x) envG stC1 "braces wire poking cheek" "Sam"
        none).faqGenCalls = 1 ∧
    (handler (fun x => x) envG stC1 "braces wire poking cheek" "Sam"
        none).faqId = none ∧
    (handler (fun x => x) envG stC1 "braces wire poking cheek" "Sam"
        none).resolvedFaqId = none :=
  cachedNullFaq_trusted (fun x => x) envG stC1 "braces wire poking cheek" "Sam"
    rowC1 (by decide) (by decide) (by decide) (by decide) (by decide)
    (by decide) (by decide) (by decide) (by decide)

/-- Witness for C2 at a concrete pair of requests. -/
theorem cache_round_trip_witness :
    (twoRequests (fun x => x) envG envG ⟨[], [], [], []⟩ "wire poking my cheek"
          "Sam").2.canonicalIntent
        = (twoRequests (fun x => x) envG envG ⟨[], [], [], []⟩
            "wire poking my cheek" "Sam").1.canonicalIntent ∧
    (twoRequests (fun x => x) envG envG ⟨[], [], [], []⟩ "wire poking my cheek"
          "Sam").2.route
        = (twoRequests (fun x => x) envG envG ⟨[], [], [], []⟩
            "wire poking my cheek" "Sam").1.route ∧
    (twoRequests (fun x => x) envG envG ⟨[], [], [], []⟩ "wire poking my cheek"
          "Sam").2.resolvedFaqId
        = (twoRequests (fun x => x) envG envG ⟨[], [], [], []⟩
            "wire poking my cheek" "Sam").1.resolvedFaqId ∧
    (twoRequests (fun x => x) envG envG ⟨[], [], [], []⟩ "wire poking my cheek"
          "Sam").1.routerCalls
        + (twoRequests (fun x => x) envG envG ⟨[], [], [], []⟩
            "wire poking my cheek" "Sam").2.routerCalls = 1 ∧
    (twoRequests (fun x => x) envG envG ⟨[], [], [], []⟩ "wire poking my cheek"
          "Sam").1.matcherRuns
        + (twoRequests (fun x => x) envG envG ⟨[], [], [], []⟩
            "wire poking my cheek" "Sam").2.matcherRuns ≤ 1 ∧
    ((twoRequests (fun x => x) envG envG ⟨[], [], [], []⟩ "wire poking my cheek"
          "Sam").1.route = some .FAQ →
      (twoRequests (fun x => x) envG envG ⟨[], [], [], []⟩
            "wire poking my cheek" "Sam").1.matcherRuns
        + (twoRequests (fun x => x) envG envG ⟨[], [], [], []⟩
            "wire poking my cheek" "Sam").2.matcherRuns = 1) ∧
    ((twoRequests (fun x => x) envG envG ⟨[], [], [], []⟩ "wire poking my cheek"
          "Sam").1.route ≠ some .FAQ →
      (twoRequests (fun x => x) envG envG ⟨[], [], [], []⟩
            "wire poking my cheek" "Sam").1.matcherRuns
        + (twoRequests (fun x => x) envG envG ⟨[], [], [], []⟩
            "wire poking my cheek" "Sam").2.matcherRuns = 0) :=
  cache_round_trip (fun x => x) envG envG [] [] [] "wire poking my cheek" "Sam"
    (by decide) (by decide) (by decide) (by decide) (by decide) (by decide)
    (by decide) (by decide)

/-- Witness for C3 at a concrete unconfigured-primary, thrown-secondary run. -/
theorem strictRouter_total_and_default_witness :
    strictRouter none .throws (.error ()) = .EDUCATION :=
  (strictRouter_total_and_default none .throws (.error ())).2.2 (by decide)
    (by decide)

/-- Witness for C5 at a concrete `NONE` reply. -/
theorem selectBestFAQ_precision_gate_witness :
    selectBestFAQWithLLM "braces pain" [(faqA, 0)] (.ok (some "NONE")) = none :=
  (selectBestFAQ_precision_gate "braces pain" [(faqA, 0)]
    (.ok (some "NONE"))).2.1 "NONE" rfl (by decide)

/-- Witness for C6 at a concrete zero vector. -/
theorem cosineSimilarity_edge_cases_witness :
    cosineSimilarity (fun x => x) [0, 0] [1, 2] = 0 :=
  (cosineSimilarity_edge_cases (fun x => x) [0, 0] [1, 2]).2.2.2.1 rfl (by
    intro x hx
    rcases List.mem_cons.mp hx with h | h2
    · exact h
    · simpa using h2)

/-- Witness for C8 at a concrete thrown selection call with a
high-similarity top candidate. -/
theorem faqMatcher_failure_fallback_witness :
    selectBestFAQWithLLM "braces pain" [(faqA, 1)] (.error ()) = some faqA :=
  (faqMatcher_failure_fallback (fun x => x) envG [] [] "braces pain" (faqA, 1)
    []).1 one_half_lt_one

/-- Witness for C9 at a concrete absent settings row. -/
theorem cacheGate_fail_open_witness :
    (handler (fun x => x) envG db0 "wire poking my cheek" "Sam"
        none).cacheReadPerformed = true :=
  cacheGate_fail_open.2.2.2 (fun x => x) envG db0 "wire poking my cheek" "Sam"
    (by decide) (by decide) (by decide) (by decide)

/-- Witness for C10 at a concrete short query with an identical completed
prior message in the store. -/
theorem suggestionCandidate_skips_cache_witness :
    (handler (fun x => x) envG stC10 "hi" "Sam" none).cacheReadPerformed
        = false ∧
    (handler (fun x => x) envG stC10 "hi" "Sam" none).usedCachedIntent
        = false ∧
    (handler (fun x => x) envG stC10 "hi" "Sam" none).usedCachedRoute
        = false ∧
    (handler (fun x => x) envG stC10 "hi" "Sam" none).intentCalls = 1 :=
  suggestionCandidate_skips_cache (fun x => x) envG stC10 "hi" "Sam"
    (by decide) (by decide) (by decide)

end DentalCare
